import Mathlib

/-!
Verification of the socks5-proxy-analytics core against its specification.

The Go sources are shallowly embedded as Lean definitions:
* machine integers (`int`, `int64`) become `Int`;
* `float64` token counts become `ℚ` (all arithmetic relevant to the
  proved statements is exact, so the rational embedding is faithful);
* `time.Time` values become `Int` milliseconds, with `0` as the zero value;
* Go maps become association lists or membership lists of their keys;
* channels become bounded queues (`List` plus a capacity);
* stateful methods become explicit state-passing functions;
* the concurrent normalizer shutdown is modelled as a labelled
  transition system over an explicit state record.
-/

/-! ## Data model: `internal/pipeline/collector.go`, `internal/models/traffic.go` -/

/-- Embeds `pipeline.RawTrafficEvent` (collector.go): the per-session
telemetry summary emitted by the proxy at connection close. -/
structure RawTrafficEvent where
  SourceIP : String
  DestinationIP : String
  Domain : String
  Port : Int
  Timestamp : Int
  LatencyMs : Int
  BytesIn : Int
  BytesOut : Int
  Protocol : String
deriving DecidableEq, Repr

/-- Embeds `models.TrafficLog` (traffic.go): the canonical, storage-ready
record.  `CreatedAt` carries the gorm `autoCreateTime` column; `ID` and
`DeletedAt` are the gorm bookkeeping columns.  The Go zero values are
`0` and `none`. -/
structure TrafficLog where
  ID : Int
  SourceIP : String
  DestinationIP : String
  Domain : String
  Port : Int
  Timestamp : Int
  LatencyMs : Int
  BytesIn : Int
  BytesOut : Int
  Protocol : String
  CreatedAt : Int
  DeletedAt : Option Int
deriving DecidableEq, Repr

/-! ## Access control: `internal/security` (Authenticator, IPWhitelist) -/

/-- Embeds `security.Authenticator`. -/
structure Authenticator where
  username : String
  password : String
  enabled : Bool
deriving DecidableEq, Repr

/-- Embeds `security.NewAuthenticator`: the constructor always sets
`enabled := true`. -/
def NewAuthenticator (username password : String) : Authenticator :=
  { username := username, password := password, enabled := true }

/-- Embeds `Authenticator.Authenticate`: when disabled always true,
otherwise exact match of both credentials. -/
def Authenticator.Authenticate (a : Authenticator) (username password : String) : Bool :=
  if !a.enabled then
    true
  else
    username == a.username && password == a.password

/-- Embeds `Authenticator.IsEnabled`. -/
def Authenticator.IsEnabled (a : Authenticator) : Bool :=
  a.enabled

/-- Embeds `security.IPWhitelist`.  The Go `map[string]bool` is modelled by
the list of its keys (insertion is idempotent, removal deletes the key). -/
structure IPWhitelist where
  allowedIPs : List String
  enabled : Bool
deriving DecidableEq, Repr

/-- Embeds `security.NewIPWhitelist`: `enabled := len(ips) > 0`, then every
configured IP is inserted into the map. -/
def NewIPWhitelist (ips : List String) : IPWhitelist :=
  { allowedIPs := ips.foldl (fun m ip => if ip ∈ m then m else m ++ [ip]) [],
    enabled := !ips.isEmpty }

/-- Embeds `IPWhitelist.IsAllowed`: when `enabled` is false always true,
otherwise a membership test. -/
def IPWhitelist.IsAllowed (w : IPWhitelist) (ip : String) : Bool :=
  if !w.enabled then
    true
  else
    w.allowedIPs.contains ip

/-- Embeds `IPWhitelist.AddIP`: sets the key in the map (idempotent);
the `enabled` flag is not touched. -/
def IPWhitelist.AddIP (w : IPWhitelist) (ip : String) : IPWhitelist :=
  { w with allowedIPs := if ip ∈ w.allowedIPs then w.allowedIPs else w.allowedIPs ++ [ip] }

/-- Embeds `IPWhitelist.RemoveIP`: deletes the key from the map;
the `enabled` flag is not touched. -/
def IPWhitelist.RemoveIP (w : IPWhitelist) (ip : String) : IPWhitelist :=
  { w with allowedIPs := w.allowedIPs.filter (fun x => x ≠ ip) }

/-- A runtime mutation of the whitelist: one `AddIP` or `RemoveIP` call. -/
inductive WlOp where
  | add (ip : String)
  | remove (ip : String)
deriving DecidableEq, Repr

/-- Applies one runtime whitelist mutation. -/
def IPWhitelist.applyOp (w : IPWhitelist) : WlOp → IPWhitelist
  | WlOp.add ip => w.AddIP ip
  | WlOp.remove ip => w.RemoveIP ip

/-- Applies a sequence of runtime whitelist mutations, oldest first. -/
def IPWhitelist.applyOps (w : IPWhitelist) (ops : List WlOp) : IPWhitelist :=
  ops.foldl IPWhitelist.applyOp w

/-- Neither `AddIP` nor `RemoveIP` modifies the `enabled` flag. -/
theorem IPWhitelist.applyOp_enabled (w : IPWhitelist) (op : WlOp) :
    (w.applyOp op).enabled = w.enabled := by
  cases op <;> rfl

/-- The `enabled` flag is invariant under every sequence of runtime
mutations: it is assigned only at construction. -/
theorem IPWhitelist.applyOps_enabled (ops : List WlOp) (w : IPWhitelist) :
    (w.applyOps ops).enabled = w.enabled := by
  induction ops generalizing w with
  | nil => rfl
  | cons op rest ih =>
      simpa [IPWhitelist.applyOps, List.foldl_cons, IPWhitelist.applyOp_enabled]
        using ih (w.applyOp op)

/-! ## Admission gate: `internal/pipeline/pool.go` (`ConnectionPool`) -/

/-- Embeds `pipeline.ConnectionPool`: a mutex-guarded bounded counter of
active proxy sessions (Go `int` fields become `Int`). -/
structure ConnectionPool where
  maxConnections : Int
  activeConn : Int
deriving DecidableEq, Repr

/-- Embeds `pipeline.NewConnectionPool`: the counter starts at zero. -/
def NewConnectionPool (maxConnections : Int) : ConnectionPool :=
  { maxConnections := maxConnections, activeConn := 0 }

/-- Embeds `ConnectionPool.AddConnection`: refuse (leaving the counter
unchanged) when `activeConn >= maxConnections`, otherwise increment. -/
def ConnectionPool.AddConnection (cp : ConnectionPool) : Bool × ConnectionPool :=
  if cp.maxConnections ≤ cp.activeConn then
    (false, cp)
  else
    (true, { cp with activeConn := cp.activeConn + 1 })

/-- Embeds `ConnectionPool.RemoveConnection`: decrement only when the
counter is positive. -/
def ConnectionPool.RemoveConnection (cp : ConnectionPool) : ConnectionPool :=
  if 0 < cp.activeConn then
    { cp with activeConn := cp.activeConn - 1 }
  else
    cp

/-- Embeds `ConnectionPool.GetActiveConnections`. -/
def ConnectionPool.GetActiveConnections (cp : ConnectionPool) : Int :=
  cp.activeConn

/-- Runs `n` consecutive `AddConnection` calls, returning the list of
results in call order together with the final pool state. -/
def addIter (cp : ConnectionPool) : Nat → List Bool × ConnectionPool
  | 0 => ([], cp)
  | n + 1 =>
      let step := cp.AddConnection
      let rest := addIter step.2 n
      (step.1 :: rest.1, rest.2)

/-- While the pool has room for all of them, `n` consecutive
`AddConnection` calls all succeed and raise the counter by `n`. -/
theorem addIter_below (n : Nat) (cp : ConnectionPool)
    (h : cp.activeConn + n ≤ cp.maxConnections) :
    addIter cp n = (List.replicate n true, { cp with activeConn := cp.activeConn + n }) := by
  induction n generalizing cp with
  | zero => simp [addIter]
  | succ n ih =>
      have hlt : cp.activeConn < cp.maxConnections := by omega
      have hadd : cp.AddConnection = (true, { cp with activeConn := cp.activeConn + 1 }) := by
        simp [ConnectionPool.AddConnection, not_le.mpr hlt]
      have hrest := ih { cp with activeConn := cp.activeConn + 1 } (by simp; omega)
      simp [addIter, hadd, hrest, List.replicate_succ]
      omega

/-! ## Rate limiter: `internal/security` (`RateLimiter`, token bucket) -/

/-- Embeds the Go helper `minFloat` from security.go. -/
def minFloat (a b : ℚ) : ℚ :=
  if a < b then a else b

/-- Embeds `security.tokenBucket`: `float64` token count as `ℚ`,
`time.Time` as `Int` milliseconds. -/
structure tokenBucket where
  tokens : ℚ
  lastTime : Int
  ratePerMs : ℚ
deriving DecidableEq, Repr

/-- Embeds `security.RateLimiter`; the bucket map becomes an association
list from identifier to bucket. -/
structure RateLimiter where
  requestsPerSecond : Int
  buckets : List (String × tokenBucket)
  enabled : Bool
deriving DecidableEq, Repr

/-- Embeds `security.NewRateLimiter`: empty bucket map. -/
def NewRateLimiter (requestsPerSecond : Int) (enabled : Bool) : RateLimiter :=
  { requestsPerSecond := requestsPerSecond, buckets := [], enabled := enabled }

/-- Lookup in the bucket map. -/
def bucketsLookup : List (String × tokenBucket) → String → Option tokenBucket
  | [], _ => none
  | (k, v) :: rest, key => if k = key then some v else bucketsLookup rest key

/-- Store (insert or overwrite) in the bucket map. -/
def bucketsStore : List (String × tokenBucket) → String → tokenBucket → List (String × tokenBucket)
  | [], key, v => [(key, v)]
  | (k, w) :: rest, key, v =>
      if k = key then (k, v) :: rest else (k, w) :: bucketsStore rest key v

/-- Embeds `RateLimiter.Allow`, with the wall clock passed explicitly as
`now` (milliseconds).  When disabled: always true with no bookkeeping.
On first sighting of the identifier a bucket is created full and the call
returns true without decrementing.  Otherwise tokens are replenished by
`elapsed * ratePerMs`, capped at capacity; with at least one token the
call consumes one and succeeds, otherwise it fails; in both cases the
refreshed token count and `lastTime := now` are written back. -/
def RateLimiter.Allow (rl : RateLimiter) (identifier : String) (now : Int) :
    Bool × RateLimiter :=
  if !rl.enabled then
    (true, rl)
  else
    match bucketsLookup rl.buckets identifier with
    | none =>
        let bucket : tokenBucket :=
          { tokens := (rl.requestsPerSecond : ℚ), lastTime := now,
            ratePerMs := (rl.requestsPerSecond : ℚ) / 1000 }
        (true, { rl with buckets := bucketsStore rl.buckets identifier bucket })
    | some bucket =>
        let elapsed : Int := now - bucket.lastTime
        let tokens : ℚ :=
          minFloat (rl.requestsPerSecond : ℚ) (bucket.tokens + (elapsed : ℚ) * bucket.ratePerMs)
        if 1 ≤ tokens then
          let refreshed : tokenBucket :=
            { tokens := tokens - 1, lastTime := now, ratePerMs := bucket.ratePerMs }
          (true, { rl with buckets := bucketsStore rl.buckets identifier refreshed })
        else
          let refreshed : tokenBucket :=
            { tokens := tokens, lastTime := now, ratePerMs := bucket.ratePerMs }
          (false, { rl with buckets := bucketsStore rl.buckets identifier refreshed })

/-- Runs `n` consecutive `Allow` calls for one identifier at one instant,
returning the results in call order and the final limiter state. -/
def allowIter (rl : RateLimiter) (identifier : String) (now : Int) :
    Nat → List Bool × RateLimiter
  | 0 => ([], rl)
  | n + 1 =>
      let step := rl.Allow identifier now
      let rest := allowIter step.2 identifier now n
      (step.1 :: rest.1, rest.2)

/-- The bucket during an instantaneous burst: `k` tokens already
consumed out of capacity `c`. -/
def burstBucket (c : Nat) (now : Int) (k : Nat) : tokenBucket :=
  { tokens := (c : ℚ) - (k : ℚ), lastTime := now, ratePerMs := (c : ℚ) / 1000 }

/-- The limiter state during an instantaneous burst: one bucket for the
identifier, `k` tokens already consumed out of capacity `c`. -/
def burstState (c : Nat) (identifier : String) (now : Int) (k : Nat) : RateLimiter :=
  { requestsPerSecond := (c : Int),
    buckets := [(identifier, burstBucket c now k)],
    enabled := true }

/-- One instantaneous `Allow` call with `k < c` tokens consumed succeeds
and consumes one more token. -/
theorem allow_burst_step (c : Nat) (identifier : String) (now : Int) (k : Nat)
    (hk : k < c) :
    (burstState c identifier now k).Allow identifier now =
      (true, burstState c identifier now (k + 1)) := by
  have hmin : minFloat (c : ℚ) ((c : ℚ) - (k : ℚ)) = (c : ℚ) - (k : ℚ) := by
    have hnot : ¬ ((c : ℚ) < (c : ℚ) - (k : ℚ)) := by
      have : (0 : ℚ) ≤ (k : ℚ) := by positivity
      linarith
    simp [minFloat, hnot]
  have hone : (1 : ℚ) ≤ (c : ℚ) - (k : ℚ) := by
    have : ((k : ℚ) + 1) ≤ (c : ℚ) := by exact_mod_cast hk
    linarith
  simp [RateLimiter.Allow, burstState, burstBucket, bucketsLookup, bucketsStore, hmin, hone]
  ring

/-- An instantaneous burst of `n` further calls succeeds entirely while
`k + n` stays within capacity. -/
theorem allow_burst_run (c : Nat) (identifier : String) (now : Int) :
    ∀ n k, k + n ≤ c →
      allowIter (burstState c identifier now k) identifier now n =
        (List.replicate n true, burstState c identifier now (k + n)) := by
  intro n
  induction n with
  | zero => intro k _; simp [allowIter]
  | succ n ih =>
      intro k hk
      have hstep := allow_burst_step c identifier now k (by omega)
      have hrest := ih (k + 1) (by omega)
      simp [allowIter, hstep, hrest, List.replicate_succ]
      congr 1
      omega

/-- With every token consumed, the next instantaneous call fails and
leaves zero tokens in place. -/
theorem allow_burst_exhausted (c : Nat) (identifier : String) (now : Int) :
    (burstState c identifier now c).Allow identifier now =
      (false, burstState c identifier now c) := by
  have hmin : minFloat (c : ℚ) (0 : ℚ) = (0 : ℚ) := by
    have hnot : ¬ ((c : ℚ) < (0 : ℚ)) := by
      have : (0 : ℚ) ≤ (c : ℚ) := by positivity
      linarith
    simp [minFloat, hnot]
  simp [RateLimiter.Allow, burstState, burstBucket, bucketsLookup, bucketsStore, hmin]

/-- The first `Allow` call for a brand-new identifier creates a full
bucket and succeeds without consuming a token. -/
theorem allow_first_free (c : Nat) (identifier : String) (now : Int) :
    (NewRateLimiter (c : Int) true).Allow identifier now =
      (true, burstState c identifier now 0) := by
  simp [RateLimiter.Allow, NewRateLimiter, bucketsLookup, bucketsStore, burstState, burstBucket]

/-- Splitting an iterated run of `Allow` calls. -/
theorem allowIter_add (identifier : String) (now : Int) (m n : Nat) :
    ∀ rl : RateLimiter,
      allowIter rl identifier now (m + n) =
        ((allowIter rl identifier now m).1 ++
          (allowIter (allowIter rl identifier now m).2 identifier now n).1,
         (allowIter (allowIter rl identifier now m).2 identifier now n).2) := by
  induction m with
  | zero => intro rl; simp [allowIter]
  | succ m ih =>
      intro rl
      have : m + 1 + n = (m + n) + 1 := by omega
      rw [this]
      simp [allowIter, ih]

/-! ## Collector: `internal/pipeline/collector.go` -/

/-- Embeds `Collector.Collect` with the bounded intake channel passed
explicitly as a queue plus its capacity.  The Go `select` with a
`default` arm is a non-blocking enqueue: when the queue has room the
event is appended, otherwise it is dropped (only a warning is logged).
Both branches `return nil`; the returned `Option String` is the Go
`error` value, always `none`. -/
def Collector.Collect (queue : List RawTrafficEvent) (cap : Nat) (event : RawTrafficEvent) :
    List RawTrafficEvent × Option String :=
  if queue.length < cap then
    (queue ++ [event], none)
  else
    (queue, none)

/-! ## Normalizer: `internal/pipeline/normalizer.go` -/

/-- Embeds the body of `Normalizer.process` applied to one event: the
`models.TrafficLog` literal copies the nine source fields; `ID`,
`CreatedAt` and `DeletedAt` are not mentioned in the literal and so keep
their Go zero values. -/
def Normalizer.processEvent (event : RawTrafficEvent) : TrafficLog :=
  { ID := 0,
    SourceIP := event.SourceIP,
    DestinationIP := event.DestinationIP,
    Domain := event.Domain,
    Port := event.Port,
    Timestamp := event.Timestamp,
    LatencyMs := event.LatencyMs,
    BytesIn := event.BytesIn,
    BytesOut := event.BytesOut,
    Protocol := event.Protocol,
    CreatedAt := 0,
    DeletedAt := none }

/-- Written from the spec wording, for comparison with the code: "same
fields as RawTrafficEvent plus a record-creation timestamp", the
timestamp being taken at normalization time `createdAt`. -/
def processEventSpecVersion (createdAt : Int) (event : RawTrafficEvent) : TrafficLog :=
  { ID := 0,
    SourceIP := event.SourceIP,
    DestinationIP := event.DestinationIP,
    Domain := event.Domain,
    Port := event.Port,
    Timestamp := event.Timestamp,
    LatencyMs := event.LatencyMs,
    BytesIn := event.BytesIn,
    BytesOut := event.BytesOut,
    Protocol := event.Protocol,
    CreatedAt := createdAt,
    DeletedAt := none }

/-- A sample traffic event (the one used by the repository's own
collector test). -/
def sampleEvent : RawTrafficEvent :=
  { SourceIP := "192.168.1.1", DestinationIP := "8.8.8.8", Domain := "google.com",
    Port := 443, Timestamp := 0, LatencyMs := 100, BytesIn := 1024, BytesOut := 512,
    Protocol := "tcp" }

/-! ### Normalizer shutdown as a transition system

`Normalizer.Start` launches `numWorkers` goroutines, each ranging over the
input channel and doing a non-blocking send of the normalized record on
the output channel.  `Normalizer.Close` is exactly `close(n.out)` — the
struct has no `sync.WaitGroup` and `Close` does not wait for the workers.
The state below records both channels and the workers; `panicked` is set
when a worker attempts a channel send after the output channel is closed
(a runtime panic in Go). -/
structure NormState where
  inQueue : List RawTrafficEvent
  inClosed : Bool
  running : Nat
  taken : List RawTrafficEvent
  outQueue : List TrafficLog
  outCap : Nat
  outClosed : Bool
  panicked : Bool
deriving DecidableEq, Repr

/-- Embeds `Normalizer.Close`: `close(n.out)`, unconditionally — there is
no join barrier before the close. -/
def Normalizer.CloseOp (s : NormState) : NormState :=
  { s with outClosed := true }

/-- One scheduler step of the normalizer worker pool together with the
shutdown operations invoked from `cmd/proxy/main.go`. -/
inductive NormStep : NormState → NormState → Prop
  | recv (s : NormState) (e : RawTrafficEvent) (rest : List RawTrafficEvent)
      (hq : s.inQueue = e :: rest) (hw : 0 < s.running) :
      NormStep s { s with inQueue := rest, taken := s.taken ++ [e] }
  | sendOk (s : NormState) (e : RawTrafficEvent) (rest : List RawTrafficEvent)
      (ht : s.taken = e :: rest) (hc : s.outClosed = false)
      (hf : s.outQueue.length < s.outCap) :
      NormStep s { s with taken := rest, outQueue := s.outQueue ++ [Normalizer.processEvent e] }
  | sendDrop (s : NormState) (e : RawTrafficEvent) (rest : List RawTrafficEvent)
      (ht : s.taken = e :: rest) (hc : s.outClosed = false)
      (hf : s.outCap ≤ s.outQueue.length) :
      NormStep s { s with taken := rest }
  | sendClosed (s : NormState) (e : RawTrafficEvent) (rest : List RawTrafficEvent)
      (ht : s.taken = e :: rest) (hc : s.outClosed = true) :
      NormStep s { s with panicked := true }
  | workerExit (s : NormState)
      (hin : s.inClosed = true) (hq : s.inQueue = []) (hw : 0 < s.running) :
      NormStep s { s with running := s.running - 1 }
  | closeOut (s : NormState) :
      NormStep s (Normalizer.CloseOp s)
  | closeIn (s : NormState) :
      NormStep s { s with inClosed := true }

/-- Reachability in the normalizer shutdown system. -/
def NormReachable : NormState → NormState → Prop :=
  Relation.ReflTransGen NormStep

/-- A start state: one worker running, one event still in the intake
queue, both channels open. -/
def normInit : NormState :=
  { inQueue := [sampleEvent], inClosed := false, running := 1, taken := [],
    outQueue := [], outCap := 10, outClosed := false, panicked := false }

/-- The state right after `Normalizer.Close` runs in `normInit`. -/
def normAfterClose : NormState :=
  { inQueue := [sampleEvent], inClosed := false, running := 1, taken := [],
    outQueue := [], outCap := 10, outClosed := true, panicked := false }

/-- The state after the worker then takes the pending event. -/
def normAfterRecv : NormState :=
  { inQueue := [], inClosed := false, running := 1, taken := [sampleEvent],
    outQueue := [], outCap := 10, outClosed := true, panicked := false }

/-- The state after the worker attempts its send: a Go panic. -/
def normPanicked : NormState :=
  { inQueue := [], inClosed := false, running := 1, taken := [sampleEvent],
    outQueue := [], outCap := 10, outClosed := true, panicked := true }

/-! ## Publisher: `internal/pipeline/publisher.go` -/

/-- One iteration of the `select` in `Publisher.processBatch`:
cancellation (`ctx.Done`, signalled by `Stop`), a `nil` record (the input
channel was closed), an incoming record, or a flush-ticker tick. -/
inductive LoopEvent where
  | cancel
  | recvNil
  | recv (record : TrafficLog)
  | tick
deriving DecidableEq, Repr

/-- Embeds `Publisher.processBatch`: the consumer loop over a schedule of
`select` outcomes, starting from a pending batch.  It returns the list of
`flushBatch` invocations in order (each the exact slice passed to the
storage bulk-insert) and whether the loop has terminated.  The deferred
`flushBatch` of a non-empty remaining batch runs exactly when the loop
returns (`cancel` or `recvNil`); if the schedule is exhausted with the
loop still running, no deferred flush has happened. -/
def Publisher.processBatch (batchSize : Nat) :
    List LoopEvent → List TrafficLog → List (List TrafficLog) × Bool
  | [], _ => ([], false)
  | LoopEvent.cancel :: _, batch =>
      (if batch.isEmpty then [] else [batch], true)
  | LoopEvent.recvNil :: _, batch =>
      (if batch.isEmpty then [] else [batch], true)
  | LoopEvent.recv r :: rest, batch =>
      let b := batch ++ [r]
      if batchSize ≤ b.length then
        let next := Publisher.processBatch batchSize rest []
        (b :: next.1, next.2)
      else
        Publisher.processBatch batchSize rest b
  | LoopEvent.tick :: rest, batch =>
      if batch.isEmpty then
        Publisher.processBatch batchSize rest batch
      else
        let next := Publisher.processBatch batchSize rest []
        (batch :: next.1, next.2)

/-- Receiving records that never fill the batch just accumulates them. -/
theorem processBatch_recvRun (batchSize : Nat) (records : List TrafficLog) :
    ∀ (batch : List TrafficLog) (evs : List LoopEvent),
      batch.length + records.length < batchSize →
      Publisher.processBatch batchSize (records.map LoopEvent.recv ++ evs) batch =
        Publisher.processBatch batchSize evs (batch ++ records) := by
  induction records with
  | nil => intro batch evs _; simp
  | cons r rest ih =>
      intro batch evs h
      simp only [List.length_cons] at h
      have hlen : ¬ (batchSize ≤ batch.length + 1) := by omega
      have hrec := ih (batch ++ [r]) evs (by simp; omega)
      simp only [List.map_cons, List.cons_append, Publisher.processBatch,
        List.length_append, List.length_cons, List.length_nil, Nat.add_zero]
      rw [if_neg hlen]
      simpa using hrec

/-! ## Proxy server: `internal/proxy/server.go`

`Server.Start` builds the go-socks5 configuration as
`conf := &socks5.Config{Resolver: &socks5.DNSResolver{}}` and then sets
`conf.Dial = s.dialWithTracking`.  No other field is assigned: the
library's credential store (`Credentials`/`AuthMethods`, the hook where a
`security.Authenticator` would attach) and its `Rules` rule set (the hook
where a `security.IPWhitelist` would attach) are left nil, and nothing in
the `proxy` package references `pipeline.ConnectionPool` or
`security.RateLimiter`. -/

/-- The four resource-governance checks named by the specification. -/
inductive GateCheck where
  | admission
  | rateLimit
  | auth
  | whitelist
deriving DecidableEq, Repr

/-- The go-socks5 configuration fields relevant to session gating, as
assigned by `Server.Start`. -/
structure Socks5Config where
  hasResolver : Bool
  hasTrackingDial : Bool
  credentials : Option (String × String)
  hasRuleSet : Bool
deriving DecidableEq, Repr

/-- Embeds the configuration built in `Server.Start`: resolver and
tracking dialer set, credentials and rule set left nil. -/
def Server.startConfig : Socks5Config :=
  { hasResolver := true, hasTrackingDial := true, credentials := none, hasRuleSet := false }

/-- Observable steps of one proxy session. -/
inductive SessionStep where
  | gate (check : GateCheck)
  | negotiated
  | dialed
  | relaying
  | emitted
  | closed
deriving DecidableEq, Repr

/-- Is the step one of the four gate checks? -/
def isGateStep : SessionStep → Bool
  | SessionStep.gate _ => true
  | _ => false

/-- The gate checks a go-socks5 session runs for a given configuration:
the library authenticates with the configured credentials (when set) and
consults the rule set (when set); it has no admission-pool or
rate-limiter hook at all. -/
def configGates (conf : Socks5Config) : List SessionStep :=
  (if conf.credentials.isSome then [SessionStep.gate GateCheck.auth] else []) ++
    (if conf.hasRuleSet then [SessionStep.gate GateCheck.whitelist] else [])

/-- The step trace of one proxy session under configuration `conf`.
After any configured gates, the session negotiates the request, then
`dialWithTracking` dials the destination.  On success the connection is
wrapped in a `trackedConn`, bytes are relayed, and `trackedConn.Close`
builds a `RawTrafficEvent` and hands it to `Collector.Collect`
unconditionally.  On dial failure only a debug log line is produced and
the session closes without an event. -/
def sessionTrace (conf : Socks5Config) (dialOk : Bool) : List SessionStep :=
  configGates conf ++ [SessionStep.negotiated] ++
    (if dialOk then
      [SessionStep.dialed, SessionStep.relaying, SessionStep.emitted, SessionStep.closed]
    else
      [SessionStep.closed])

/-- Embeds the event built in `trackedConn.Close`: source IP from the
remote address, destination parsed from the dialed address, `Domain`
always empty (the code comment notes reverse DNS is not performed),
`Protocol` always `"tcp"`, counters from the tracked connection. -/
def trackedConnCloseEvent (sourceIP destIP : String) (destPort : Int)
    (timestamp latency bytesIn bytesOut : Int) : RawTrafficEvent :=
  { SourceIP := sourceIP, DestinationIP := destIP, Domain := "", Port := destPort,
    Timestamp := timestamp, LatencyMs := latency, BytesIn := bytesIn,
    BytesOut := bytesOut, Protocol := "tcp" }

/-! ## Claim theorems -/

/-- Splitting an iterated run of `AddConnection` calls. -/
theorem addIter_add (m n : Nat) :
    ∀ cp : ConnectionPool,
      addIter cp (m + n) =
        ((addIter cp m).1 ++ (addIter (addIter cp m).2 n).1,
         (addIter (addIter cp m).2 n).2) := by
  induction m with
  | zero => intro cp; simp [addIter]
  | succ m ih =>
      intro cp
      have hsplit : m + 1 + n = (m + n) + 1 := by omega
      rw [hsplit]
      simp [addIter, ih]

/-- Claim C1 (counterexample): under the configuration actually built by
`Server.Start`, a session with a successful dial runs zero of the four
gate checks, yet relays and emits a `RawTrafficEvent` — refuting the
claim that every session applies Admission Gate, Rate Limiter,
Authenticator and IPWhitelist before negotiation and that unchecked
sessions never emit telemetry. -/
theorem proxy_session_unchecked :
    (sessionTrace Server.startConfig true).countP isGateStep = 0 ∧
    SessionStep.emitted ∈ sessionTrace Server.startConfig true ∧
    SessionStep.relaying ∈ sessionTrace Server.startConfig true := by
  decide

/-- Claim C1 (amended): `Server.Start` wires no admission-gate,
rate-limiter, authenticator or whitelist check into the proxy path
(credentials and rule set are left nil); every session proceeds directly
to protocol negotiation, a session whose dial succeeds enters relaying
and emits exactly one `RawTrafficEvent` at close, and a session whose
dial fails emits none. -/
theorem proxy_session_no_gates (dialOk : Bool) :
    Server.startConfig.credentials = none ∧
    Server.startConfig.hasRuleSet = false ∧
    (sessionTrace Server.startConfig dialOk).countP isGateStep = 0 ∧
    (sessionTrace Server.startConfig dialOk).count SessionStep.emitted =
      (if dialOk then 1 else 0) ∧
    ((SessionStep.relaying ∈ sessionTrace Server.startConfig dialOk) ↔ dialOk = true) := by
  cases dialOk <;> decide

/-- Claim C2: `Normalizer.Close` is `close(n.out)` with no join barrier —
the struct has no `WaitGroup` and `Close` has no precondition on the
workers.  From a state with one worker still running and one event still
queued, the shutdown sequence of `cmd/proxy/main.go` reaches a state
where the output channel is closed while the worker is still running,
and from there the worker's send on the closed channel (a Go runtime
panic) is reachable. -/
theorem normalizer_close_no_join_barrier :
    NormReachable normInit normAfterClose ∧
    normAfterClose.outClosed = true ∧
    0 < normAfterClose.running ∧
    NormReachable normInit normPanicked ∧
    normPanicked.panicked = true ∧
    (∀ s : NormState,
      (Normalizer.CloseOp s).outClosed = true ∧ (Normalizer.CloseOp s).running = s.running) := by
  have step1 : NormStep normInit normAfterClose := NormStep.closeOut normInit
  have step2 : NormStep normAfterClose normAfterRecv :=
    NormStep.recv normAfterClose sampleEvent [] rfl (by decide)
  have step3 : NormStep normAfterRecv normPanicked :=
    NormStep.sendClosed normAfterRecv sampleEvent [] rfl rfl
  refine ⟨Relation.ReflTransGen.single step1, rfl, by decide, ?_, rfl, fun s => ⟨rfl, rfl⟩⟩
  exact Relation.ReflTransGen.head step1
    (Relation.ReflTransGen.head step2 (Relation.ReflTransGen.single step3))

/-- Claim C3: for an enabled limiter with capacity `c ≥ 1` and a
brand-new identifier, at one instant: the first `Allow` call succeeds
and creates a full bucket of `c` tokens (nothing consumed), the next `c`
calls all succeed, and the `(c+2)`-th call fails. -/
theorem rateLimiter_first_free_burst (c : Nat) (identifier : String) (now : Int)
    (_h : 1 ≤ c) :
    (NewRateLimiter (c : Int) true).Allow identifier now =
      (true, burstState c identifier now 0) ∧
    (burstState c identifier now 0).buckets =
      [(identifier,
        { tokens := (c : ℚ), lastTime := now, ratePerMs := (c : ℚ) / 1000 })] ∧
    (allowIter (NewRateLimiter (c : Int) true) identifier now (c + 2)).1 =
      List.replicate (c + 1) true ++ [false] := by
  refine ⟨allow_first_free c identifier now, by simp [burstState, burstBucket], ?_⟩
  have h1 : allowIter (NewRateLimiter (c : Int) true) identifier now 1 =
      ([true], burstState c identifier now 0) := by
    simp [allowIter, allow_first_free]
  have hsplit : c + 2 = 1 + (c + 1) := by omega
  rw [hsplit, allowIter_add identifier now 1 (c + 1), h1]
  have hrun := allow_burst_run c identifier now c 0 (by omega)
  rw [allowIter_add identifier now c 1]
  simp only [Nat.zero_add] at hrun
  rw [hrun]
  simp [allowIter, allow_burst_exhausted, List.replicate_succ]

/-- Claim C3 (witness): the burst behavior at capacity 2. -/
theorem rateLimiter_first_free_burst_witness :
    (allowIter (NewRateLimiter ((2 : Nat) : Int) true) "client" 0 (2 + 2)).1 =
      List.replicate (2 + 1) true ++ [false] :=
  (rateLimiter_first_free_burst 2 "client" 0 (by decide)).2.2

/-- Claim C4 (counterexample): a whitelist constructed from one IP and
then emptied at runtime by `RemoveIP` has an empty allow-list set but
denies every IP (the `enabled` flag stays true), refuting "empty means
allow all" for runtime-emptied whitelists. -/
theorem ipwhitelist_emptied_denies_all :
    ((NewIPWhitelist ["192.168.1.1"]).RemoveIP "192.168.1.1").allowedIPs = [] ∧
    ((NewIPWhitelist ["192.168.1.1"]).RemoveIP "192.168.1.1").IsAllowed "10.0.0.1" = false ∧
    ((NewIPWhitelist ["192.168.1.1"]).RemoveIP "192.168.1.1").IsAllowed "192.168.1.1" = false := by
  decide

/-- Claim C4 (amended): what governs `IsAllowed` is emptiness of the
list at construction, not the current set: a whitelist constructed from
an empty list allows every IP in every subsequent state, while a
whitelist constructed from a non-empty list answers membership of the
current set for all subsequent calls (so emptying it at runtime denies
all, and `AddIP`/`RemoveIP` take effect for subsequent calls). -/
theorem ipwhitelist_construction_governs (ips : List String) (ops : List WlOp) (ip : String) :
    (ips = [] → ((NewIPWhitelist ips).applyOps ops).IsAllowed ip = true) ∧
    (ips ≠ [] →
      ((NewIPWhitelist ips).applyOps ops).IsAllowed ip =
        ((NewIPWhitelist ips).applyOps ops).allowedIPs.contains ip) := by
  constructor
  · intro h
    subst h
    have he : ((NewIPWhitelist []).applyOps ops).enabled = false := by
      rw [IPWhitelist.applyOps_enabled]
      rfl
    simp [IPWhitelist.IsAllowed, he]
  · intro h
    have he : ((NewIPWhitelist ips).applyOps ops).enabled = true := by
      rw [IPWhitelist.applyOps_enabled]
      simp [NewIPWhitelist, List.isEmpty_iff, h]
    simp [IPWhitelist.IsAllowed, he]

/-- Claim C4 (witness): both construction cases at concrete inputs. -/
theorem ipwhitelist_construction_governs_witness :
    ((NewIPWhitelist []).applyOps [WlOp.add "1.2.3.4"]).IsAllowed "5.6.7.8" = true ∧
    ((NewIPWhitelist ["1.2.3.4"]).applyOps []).IsAllowed "9.9.9.9" =
      ((NewIPWhitelist ["1.2.3.4"]).applyOps []).allowedIPs.contains "9.9.9.9" :=
  ⟨(ipwhitelist_construction_governs [] [WlOp.add "1.2.3.4"] "5.6.7.8").1 rfl,
   (ipwhitelist_construction_governs ["1.2.3.4"] [] "9.9.9.9").2 (by simp)⟩

/-- Claim C5: from an empty pool with maximum `m ≥ 1`, exactly `m`
consecutive `AddConnection` calls succeed, the `(m+1)`-th fails leaving
the counter at `m`, after one `RemoveConnection` one more
`AddConnection` succeeds, and `RemoveConnection` never takes a
non-negative counter below zero. -/
theorem connectionPool_admission (m : Nat) (cp : ConnectionPool) (h : 0 < m) :
    addIter (NewConnectionPool (m : Int)) (m + 1) =
      (List.replicate m true ++ [false],
        { maxConnections := (m : Int), activeConn := (m : Int) }) ∧
    ConnectionPool.RemoveConnection { maxConnections := (m : Int), activeConn := (m : Int) } =
      { maxConnections := (m : Int), activeConn := (m : Int) - 1 } ∧
    ConnectionPool.AddConnection { maxConnections := (m : Int), activeConn := (m : Int) - 1 } =
      (true, { maxConnections := (m : Int), activeConn := (m : Int) }) ∧
    (0 ≤ cp.activeConn → 0 ≤ cp.RemoveConnection.activeConn) := by
  have hfull := addIter_below m (NewConnectionPool (m : Int)) (by simp [NewConnectionPool])
  refine ⟨?_, ?_, ?_, ?_⟩
  · rw [addIter_add m 1, hfull]
    simp [NewConnectionPool, addIter, ConnectionPool.AddConnection]
  · have hpos : (0 : Int) < (m : Int) := by exact_mod_cast h
    simp [ConnectionPool.RemoveConnection, hpos]
  · simp [ConnectionPool.AddConnection]
  · intro h0
    unfold ConnectionPool.RemoveConnection
    split
    · simp
      omega
    · exact h0

/-- Claim C5 (witness): the admission contract at maximum 2 and the
no-underflow fact at a pool with zero active sessions. -/
theorem connectionPool_admission_witness :
    addIter (NewConnectionPool ((2 : Nat) : Int)) (2 + 1) =
      (List.replicate 2 true ++ [false],
        { maxConnections := ((2 : Nat) : Int), activeConn := ((2 : Nat) : Int) }) ∧
    0 ≤ (ConnectionPool.RemoveConnection
      { maxConnections := 5, activeConn := 0 }).activeConn :=
  ⟨(connectionPool_admission 2 { maxConnections := 5, activeConn := 0 } (by decide)).1,
   (connectionPool_admission 2 { maxConnections := 5, activeConn := 0 } (by decide)).2.2.2
     (by decide)⟩

/-- Claim C6 (counterexample): the normalizer does not add a
record-creation timestamp — the produced record's `CreatedAt` is the Go
zero value, not the normalization time (gorm's `autoCreateTime` fills it
only at database insert), so the produced record differs from the
spec-version record stamped at a nonzero normalization time. -/
theorem normalizer_no_creation_timestamp :
    Normalizer.processEvent sampleEvent ≠ processEventSpecVersion 1 sampleEvent ∧
    (Normalizer.processEvent sampleEvent).CreatedAt = 0 := by
  constructor
  · intro h
    have hfield := congrArg TrafficLog.CreatedAt h
    simp [Normalizer.processEvent, processEventSpecVersion] at hfield
  · rfl

/-- Claim C6 (amended): for every `RawTrafficEvent` a worker consumes,
the produced `TrafficLog` equals the event on all nine source fields
(the domain passed through as-is), while the record-creation timestamp
`CreatedAt` is left at its zero value by normalization and is populated
only later by the storage layer. -/
theorem normalizer_field_copy (event : RawTrafficEvent) :
    (Normalizer.processEvent event).SourceIP = event.SourceIP ∧
    (Normalizer.processEvent event).DestinationIP = event.DestinationIP ∧
    (Normalizer.processEvent event).Domain = event.Domain ∧
    (Normalizer.processEvent event).Port = event.Port ∧
    (Normalizer.processEvent event).Timestamp = event.Timestamp ∧
    (Normalizer.processEvent event).LatencyMs = event.LatencyMs ∧
    (Normalizer.processEvent event).BytesIn = event.BytesIn ∧
    (Normalizer.processEvent event).BytesOut = event.BytesOut ∧
    (Normalizer.processEvent event).Protocol = event.Protocol ∧
    (Normalizer.processEvent event).CreatedAt = 0 :=
  ⟨rfl, rfl, rfl, rfl, rfl, rfl, rfl, rfl, rfl, rfl⟩

/-- Claim C7: `Collect` is total and never returns an error; on a full
queue the event is dropped with the queue left unchanged, otherwise the
event is appended. -/
theorem collector_collect_nonblocking (queue : List RawTrafficEvent) (cap : Nat)
    (event : RawTrafficEvent) :
    (Collector.Collect queue cap event).2 = none ∧
    (cap ≤ queue.length → (Collector.Collect queue cap event).1 = queue) ∧
    (queue.length < cap → (Collector.Collect queue cap event).1 = queue ++ [event]) := by
  unfold Collector.Collect
  refine ⟨?_, ?_, ?_⟩ <;> split <;> simp_all

/-- Claim C7 (witness): a full queue of capacity 1 drops the event with
a nil error; a non-full queue appends it. -/
theorem collector_collect_nonblocking_witness :
    (Collector.Collect [sampleEvent] 1 sampleEvent).2 = none ∧
    (Collector.Collect [sampleEvent] 1 sampleEvent).1 = [sampleEvent] ∧
    (Collector.Collect [] 1 sampleEvent).1 = [] ++ [sampleEvent] :=
  ⟨(collector_collect_nonblocking [sampleEvent] 1 sampleEvent).1,
   (collector_collect_nonblocking [sampleEvent] 1 sampleEvent).2.1 (by decide),
   (collector_collect_nonblocking [] 1 sampleEvent).2.2 (by decide)⟩

/-- Claim C8: if the consumer loop has accumulated fewer than
`batchSize` records and cancellation is then signalled, the loop
terminates and performs exactly one final flush carrying exactly the
pending records — and no final flush when the pending batch is empty,
regardless of any events scheduled after the cancellation. -/
theorem publisher_final_flush (batchSize : Nat) (records : List TrafficLog)
    (rest : List LoopEvent) (h : records.length < batchSize) :
    Publisher.processBatch batchSize
        (records.map LoopEvent.recv ++ (LoopEvent.cancel :: rest)) [] =
      ((if records.isEmpty then [] else [records]), true) := by
  rw [processBatch_recvRun batchSize records [] (LoopEvent.cancel :: rest) (by simpa using h)]
  simp [Publisher.processBatch]

/-- Claim C8 (witness): one pending record flushed once on cancellation;
an empty pending batch flushed never. -/
theorem publisher_final_flush_witness :
    Publisher.processBatch 3
        ([Normalizer.processEvent sampleEvent].map LoopEvent.recv ++
          (LoopEvent.cancel :: [])) [] =
      ([[Normalizer.processEvent sampleEvent]], true) ∧
    Publisher.processBatch 3 (([] : List TrafficLog).map LoopEvent.recv ++
        (LoopEvent.cancel :: [])) [] = ([], true) := by
  constructor
  · simpa using publisher_final_flush 3 [Normalizer.processEvent sampleEvent] [] (by decide)
  · simpa using publisher_final_flush 3 [] [] (by decide)

/-- Claim C9: the whitelist's `enabled` flag is assigned only at
construction and no runtime operation modifies it; consequently a
whitelist constructed from the empty list answers true for every IP in
every subsequent state, even after arbitrary `AddIP` calls. -/
theorem ipwhitelist_enabled_fixed (w : IPWhitelist) (ops : List WlOp) (ip : String) :
    (w.applyOps ops).enabled = w.enabled ∧
    (NewIPWhitelist []).enabled = false ∧
    ((NewIPWhitelist []).applyOps ops).IsAllowed ip = true := by
  refine ⟨IPWhitelist.applyOps_enabled ops w, rfl, ?_⟩
  have he : ((NewIPWhitelist []).applyOps ops).enabled = false := by
    rw [IPWhitelist.applyOps_enabled]
    rfl
  simp [IPWhitelist.IsAllowed, he]

/-- Claim C10: every authenticator built by `NewAuthenticator` has
`enabled = true` (the disabled always-allow branch of `Authenticate` is
unreachable through the constructor), and `Authenticate` succeeds
exactly on the configured credential pair. -/
theorem authenticator_always_enabled_exact_match (u p x y : String) :
    (NewAuthenticator u p).IsEnabled = true ∧
    ((NewAuthenticator u p).Authenticate x y = true ↔ (x = u ∧ y = p)) := by
  refine ⟨rfl, ?_⟩
  simp [Authenticator.Authenticate, NewAuthenticator]
